import Mathlib

/-!
# Overwatch desktop shell: the server-readiness supervisor

A shallow embedding of `electron/main.js`: port allocation, spawning of the
Next.js server, readiness probing, window creation and the lifecycle handlers.

Calls into Node and Electron are observable effects.  Every function of the
source becomes a function returning the list of effects it performs, in order,
together with its result (and the new values of the module variables
`mainWindow` and `nextProcess` where it assigns them).  What the operating
system answers (is a port bound, does a connection succeed, the process
environment, the platform) is a parameter of the model, the `World`.

* Ports and retry counts are natural numbers; `String(port)` is the decimal
  rendering `toString port`.
* A promise is given by the effects performed until it settles and the value it
  settles with.  The search of `findAvailablePort` is not bounded in the
  source, so it takes the number of listen attempts it is observed for and
  answers `pending` when that many have not settled it.
* `server.listen` answers in one of three ways: it listens, it emits `'error'`,
  or it throws; a connection attempt is accepted, refused, or accepted and
  followed by an `'error'` on the same socket.
* The startup handler runs without other events delivered in between; events
  arrive before it starts or after it has finished.  What the probe still does
  after its promise has resolved comes right after the startup handler.
-/

namespace Overwatch

/-- Observable effects, in the order the program performs them. -/
inductive Event where
  /-- The call `Menu.setApplicationMenu(Menu.buildFromTemplate(template))`. -/
  | buildMenu
  /-- The call `server.listen(startPort, ...)` on a fresh `net.createServer()`. -/
  | listen (port : Nat)
  /-- The call `server.close(...)` after a successful listen; `port` is `server.address().port`. -/
  | serverClose (port : Nat)
  /-- The call `spawn(bin, args, { cwd, env, stdio })`. -/
  | spawn (bin : String) (args : List String) (cwd : String)
      (env : List (String × String)) (stdio : String)
  /-- Registration of a listener on the child (`stdout`, `stderr`, `error`). -/
  | childOn (what : String)
  /-- The call `net.createConnection({ port }, ...)`. -/
  | connect (port : Nat)
  /-- The call `client.end()`. -/
  | clientEnd
  /-- The call `setTimeout(..., ms)`. -/
  | setTimeout (ms : Nat)
  /-- The call `resolve()` in `waitForServer`.  The first call of `resolve` or
  `reject` settles the promise, later ones change nothing. -/
  | probeResolve
  /-- The call `reject(new Error(msg))` in `waitForServer`. -/
  | probeReject (msg : String)
  /-- The call `new BrowserWindow({ width, height, minWidth, minHeight, ... })`. -/
  | newWindow (width height minWidth minHeight : Nat)
  /-- The call `mainWindow.loadURL(url)`. -/
  | loadURL (url : String)
  /-- The call `mainWindow.webContents.setWindowOpenHandler(...)`. -/
  | setWindowOpenHandler
  /-- The call `mainWindow.on('closed', ...)`. -/
  | onClosed
  /-- The call `console.error(msg)`. -/
  | consoleError (msg : String)
  /-- The call `app.on('activate', ...)`. -/
  | onActivate
  /-- The call `app.quit()`. -/
  | quit
  /-- The call `nextProcess.kill(signal)` on the child handle `child`. -/
  | kill (child : Nat) (signal : String)
  deriving DecidableEq, Repr

/-- Answer of `server.listen(p, ...)`. -/
inductive Listen where
  /-- The server listens and `server.address().port` is `port`. -/
  | listening (port : Nat)
  /-- The server emits `'error'` (the port is in use). -/
  | error
  /-- The call throws the exception `code`, inside the executor of the promise. -/
  | throws (code : String)
  deriving DecidableEq, Repr

/-- Answer of one connection attempt `net.createConnection({ port }, ...)`. -/
inductive Answer where
  /-- The connect callback fires and the socket emits no `'error'`. -/
  | accept
  /-- The socket emits `'error'` and the connect callback never fires. -/
  | refuse
  /-- The connect callback fires and the socket emits `'error'` afterwards
  (the peer resets the connection). -/
  | acceptThenError
  deriving DecidableEq, Repr

/-- State of the promise of `findAvailablePort` at the end of an observation. -/
inductive Settled where
  /-- Not settled within the observation. -/
  | pending
  /-- Resolved with `port`. -/
  | resolved (port : Nat)
  /-- Rejected with the exception `code`. -/
  | rejected (code : String)
  deriving DecidableEq, Repr

/-- The environment the program runs in: everything Node, Electron and the
operating system decide. -/
structure World where
  /-- Answer of `server.listen(p)`. -/
  listen : Nat → Listen
  /-- Answer of the connection attempt number `i` (counted from 0) to `port`. -/
  answers : (port : Nat) → (i : Nat) → Answer
  /-- The flag `app.isPackaged`. -/
  isPackaged : Bool
  /-- The object `process.env`, as a list of key/value pairs. -/
  env : List (String × String)
  /-- The value `process.resourcesPath`. -/
  resourcesPath : String
  /-- The value `__dirname`. -/
  dirname : String
  /-- The value `process.platform`. -/
  platform : String
  /-- The function `path.join`. -/
  pathJoin : List String → String
  /-- The handle that `spawn` returns. -/
  child : Nat

/-- Module variables of `main.js`, with the part of Electron's state the
handlers read. -/
structure AppState where
  /-- The variable `mainWindow` (`none` is `undefined`/`null`). -/
  mainWindow : Option Unit
  /-- The variable `nextProcess` (`none` is `undefined`/`null`). -/
  nextProcess : Option Nat
  /-- The number `BrowserWindow.getAllWindows().length`. -/
  windows : Nat
  /-- The `'activate'` listener, if registered: the `port` its closure captured. -/
  activate : Option Nat
  deriving DecidableEq, Repr

/-- State when `main.js` has been loaded and no handler has run yet. -/
def AppState.init : AppState :=
  { mainWindow := none, nextProcess := none, windows := 0, activate := none }

/-- The constant `PORT`. -/
def PORT : Nat := 3457

/-- What `server.listen(p)` answers in Node when availability of the ports
1..65535 is the fixed predicate `bound`: a value above 65535 is no port and the
call throws `ERR_SOCKET_BAD_PORT`; 0 asks the operating system for a port, and
it hands out `ephemeral`; a bound port gives `'error'`; a free port is listened
on, with `server.address().port` that port. -/
def listenOf (bound : Nat → Bool) (ephemeral : Nat) (p : Nat) : Listen :=
  if 65535 < p then Listen.throws "ERR_SOCKET_BAD_PORT"
  else if p = 0 then Listen.listening ephemeral
  else if bound p then Listen.error
  else Listen.listening p

/-- The function `findAvailablePort(startPort)`.  The search has no bound in the
source; `fuel` is the number of listen attempts the run is observed for.  An
exception thrown by `server.listen` inside the executor rejects the promise,
and with it the promises of the calls around it. -/
def findAvailablePort (listen : Nat → Listen) : Nat → Nat → List Event × Settled
  | 0, _ => ([], Settled.pending)
  | fuel + 1, startPort =>
    match listen startPort with
    | Listen.listening port =>
      ([Event.listen startPort, Event.serverClose port], Settled.resolved port)
    | Listen.error =>
      let r := findAvailablePort listen fuel (startPort + 1)
      (Event.listen startPort :: r.1, r.2)
    | Listen.throws code => ([Event.listen startPort], Settled.rejected code)

/-- The closure `attempt(remaining)` of `waitForServer`; `made` is the number of
connection attempts made before this call.  The case `0` is the guard
`remaining <= 0`.  The result has the effects up to the settling of the
promise, the value it settles with, and the effects after it has settled: the
`'error'` listener stays on an accepted socket, so an `'error'` after the
connect callback sets the timer and calls `attempt(remaining - 1)` again. -/
def attempt (answers : Nat → Nat → Answer) (port : Nat) :
    Nat → Nat → List Event × Except String Unit × List Event
  | 0, _ =>
    ([Event.probeReject "Server failed to start"], Except.error "Server failed to start", [])
  | remaining + 1, made =>
    match answers port made with
    | Answer.accept =>
      ([Event.connect port, Event.clientEnd, Event.probeResolve], Except.ok (), [])
    | Answer.refuse =>
      let r := attempt answers port remaining (made + 1)
      (Event.connect port :: Event.setTimeout 500 :: r.1, r.2.1, r.2.2)
    | Answer.acceptThenError =>
      let r := attempt answers port remaining (made + 1)
      ([Event.connect port, Event.clientEnd, Event.probeResolve], Except.ok (),
        Event.setTimeout 500 :: (r.1 ++ r.2.2))

/-- The function `waitForServer(port, retries = 60)`; `retries = none` is the
omitted argument. -/
def waitForServer (answers : Nat → Nat → Answer) (port : Nat) (retries : Option Nat) :
    List Event × Except String Unit × List Event :=
  attempt answers port (retries.getD 60) 0

/-- Property assignment `o[k] = v` on an object kept as a list of pairs: an
existing key keeps its place and gets the new value, a new key goes last. -/
def objSet : List (String × String) → String → String → List (String × String)
  | [], k, v => [(k, v)]
  | (k0, v0) :: rest, k, v =>
    if k0 = k then (k, v) :: rest else (k0, v0) :: objSet rest k v

/-- Property read `o[k]`. -/
def objGet : List (String × String) → String → Option String
  | [], _ => none
  | (k0, v0) :: rest, k => if k0 = k then some v0 else objGet rest k

/-- The object `env` built in `startNextServer`:
`{ ...process.env, PORT: String(port), NODE_ENV: isProd ? 'production' : 'development' }`. -/
def childEnv (w : World) (port : Nat) : List (String × String) :=
  objSet (objSet w.env "PORT" (toString port)) "NODE_ENV"
    (if w.isPackaged then "production" else "development")

/-- The value `appPath` of `startNextServer`. -/
def appPath (w : World) : String :=
  if w.isPackaged then w.pathJoin [w.resourcesPath, "app"] else w.pathJoin [w.dirname, ".."]

/-- The value `nextBin` of `startNextServer`. -/
def nextBin (w : World) : String :=
  w.pathJoin [appPath w, "node_modules", ".bin", "next"]

/-- The `spawn` call of `startNextServer(port)`. -/
def spawnCall (w : World) (port : Nat) : Event :=
  if w.isPackaged then
    Event.spawn (nextBin w) ["start", "-p", toString port] (appPath w) (childEnv w port) "pipe"
  else
    Event.spawn (nextBin w) ["dev", "-p", toString port] (appPath w) (childEnv w port) "pipe"

/-- The function `startNextServer(port)`. -/
def startNextServer (w : World) (port : Nat) (s : AppState) : AppState × List Event :=
  ({ s with nextProcess := some w.child },
   [spawnCall w port, Event.childOn "stdout", Event.childOn "stderr", Event.childOn "error"])

/-- The string the template literal in `createWindow` evaluates to. -/
def windowURL (port : Nat) : String :=
  "http://localhost:" ++ toString port

/-- The function `createWindow(port)`. -/
def createWindow (port : Nat) (s : AppState) : AppState × List Event :=
  ({ s with mainWindow := some (), windows := s.windows + 1 },
   [Event.newWindow 1440 900 1024 680, Event.loadURL (windowURL port),
    Event.setWindowOpenHandler, Event.onClosed])

/-- The handler passed to `app.whenReady().then(...)`; `fuel` bounds the listen
attempts of the allocator as in `findAvailablePort`.  While the allocator is
pending, and when it has rejected, nothing after the `await` runs. -/
def whenReady (w : World) (fuel : Nat) (s : AppState) : AppState × List Event :=
  let a := findAvailablePort w.listen fuel PORT
  match a.2 with
  | Settled.resolved port =>
    let n := startNextServer w port s
    let p := waitForServer w.answers port none
    match p.2.1 with
    | Except.error _ =>
      (n.1, Event.buildMenu :: a.1 ++ n.2 ++ p.1 ++
        [Event.consoleError "Next.js server did not start in time", Event.quit] ++ p.2.2)
    | Except.ok _ =>
      let c := createWindow port n.1
      ({ c.1 with activate := some port },
        Event.buildMenu :: a.1 ++ n.2 ++ p.1 ++ c.2 ++ [Event.onActivate] ++ p.2.2)
  | _ => (s, Event.buildMenu :: a.1)

/-- The `'activate'` listener registered by the startup handler; nothing runs
when no listener is registered. -/
def activateHandler (s : AppState) : AppState × List Event :=
  match s.activate with
  | none => (s, [])
  | some port => if s.windows = 0 then createWindow port s else (s, [])

/-- The `'window-all-closed'` listener. -/
def windowAllClosed (platform : String) (s : AppState) : AppState × List Event :=
  if platform ≠ "darwin" then (s, [Event.quit]) else (s, [])

/-- The `'before-quit'` listener. -/
def beforeQuit (s : AppState) : AppState × List Event :=
  match s.nextProcess with
  | some child => ({ s with nextProcess := none }, [Event.kill child "SIGTERM"])
  | none => (s, [])

/-- The `'closed'` listener of the window, with Electron dropping the window
from `BrowserWindow.getAllWindows()`. -/
def windowClosed (s : AppState) : AppState × List Event :=
  ({ s with mainWindow := none, windows := s.windows - 1 }, [])

/-- Events Electron delivers to the application. -/
inductive Input where
  | activate
  | windowAllClosed
  | beforeQuit
  | windowClosed
  deriving DecidableEq, Repr

/-- Delivery of one event to its listener. -/
def dispatch (w : World) (s : AppState) : Input → AppState × List Event
  | Input.activate => activateHandler s
  | Input.windowAllClosed => windowAllClosed w.platform s
  | Input.beforeQuit => beforeQuit s
  | Input.windowClosed => windowClosed s

/-- Delivery of a sequence of events, one after the other. -/
def dispatchAll (w : World) : AppState → List Input → AppState × List Event
  | s, [] => (s, [])
  | s, i :: rest =>
    let r := dispatch w s i
    let r2 := dispatchAll w r.1 rest
    (r2.1, r.2 ++ r2.2)

/-- One application run: the events `early` arrive before the startup handler
has finished (they meet the listeners registered at load time), then the
startup handler runs, then the events `later` arrive. -/
def run (w : World) (fuel : Nat) (early later : List Input) : AppState × List Event :=
  let r0 := dispatchAll w AppState.init early
  let r1 := whenReady w fuel r0.1
  let r2 := dispatchAll w r1.1 later
  (r2.1, r0.2 ++ r1.2 ++ r2.2)

/-! ## Reading a trace -/

/-- Events of `n` refused connection attempts to `port`, each followed by its
500 ms timer. -/
def refusals (port : Nat) : Nat → List Event
  | 0 => []
  | n + 1 => Event.connect port :: Event.setTimeout 500 :: refusals port n

/-- Whether an event is a connection attempt of the readiness probe. -/
def isConnect : Event → Bool
  | Event.connect _ => true
  | _ => false

/-- Whether an event is a `spawn` call. -/
def isSpawn : Event → Bool
  | Event.spawn _ _ _ _ _ => true
  | _ => false

/-- Whether an event is the creation of a window. -/
def isNewWindow : Event → Bool
  | Event.newWindow _ _ _ _ => true
  | _ => false

/-- Whether an event is a signal sent to the child. -/
def isKill : Event → Bool
  | Event.kill _ _ => true
  | _ => false

/-- The delays of the timers in a trace, in order. -/
def waits : List Event → List Nat
  | [] => []
  | Event.setTimeout ms :: rest => ms :: waits rest
  | _ :: rest => waits rest

/-- The ports listened on in a trace, in order. -/
def listens : List Event → List Nat
  | [] => []
  | Event.listen p :: rest => p :: listens rest
  | _ :: rest => listens rest

/-- The URLs loaded into windows in a trace, in order. -/
def loadedURLs : List Event → List String
  | [] => []
  | Event.loadURL u :: rest => u :: loadedURLs rest
  | _ :: rest => loadedURLs rest

/-- An event satisfying `q` occurs in `tr` only after one satisfying `p`. -/
def Precedes (p q : Event → Bool) (tr : List Event) : Prop :=
  ∀ pre e post, tr = pre ++ e :: post → q e = true → ∃ x ∈ pre, p x = true

/-- Whether an event is the resolution of the readiness probe. -/
def isProbeResolve : Event → Bool
  | Event.probeResolve => true
  | _ => false

/-- The events of a run that are given a port were given the port `a` the
allocator resolved to: a `spawn` is the call `startNextServer` makes for it, a
connection attempt goes to it, a loaded URL is the one `createWindow` builds
for it. -/
def UsesPort (w : World) (a : Settled) (e : Event) : Prop :=
  (isSpawn e = true → ∃ q, a = Settled.resolved q ∧ e = spawnCall w q) ∧
  (∀ p, e = Event.connect p → a = Settled.resolved p) ∧
  (∀ u, e = Event.loadURL u → ∃ q, a = Settled.resolved q ∧ u = windowURL q)

/-- A port model for examples: the ports below 3459 are bound. -/
def boundBelow3459 (p : Nat) : Bool := decide (p < 3459)

/-- A world for examples: ports 3457 and 3458 are bound, the server accepts
the third connection attempt, the application runs from the development tree
on Linux. -/
def devWorld : World :=
  { listen := listenOf boundBelow3459 49152
    answers := fun _ i => if 2 ≤ i then Answer.accept else Answer.refuse
    isPackaged := false
    env := [("HOME", "/home/u"), ("PORT", "1")]
    resourcesPath := "/res"
    dirname := "/app/electron"
    platform := "linux"
    pathJoin := fun l => "/".intercalate l
    child := 7 }

/-- A world for examples: as `devWorld`, with a server that never accepts a
connection. -/
def deadWorld : World :=
  { devWorld with answers := fun _ _ => Answer.refuse }

/-! ## Theorems -/

theorem listenOf_port (bound : Nat → Bool) (ephemeral p : Nat) (hlo : 1 ≤ p) (hhi : p ≤ 65535) :
    listenOf bound ephemeral p = if bound p then Listen.error else Listen.listening p := by
  have h1 : ¬ 65535 < p := by omega
  have h2 : ¬ p = 0 := by omega
  simp [listenOf, h1, h2]

theorem listenOf_above (bound : Nat → Bool) (ephemeral p : Nat) (h : 65535 < p) :
    listenOf bound ephemeral p = Listen.throws "ERR_SOCKET_BAD_PORT" := by
  simp [listenOf, h]

theorem findAvailablePort_search (bound : Nat → Bool) (ephemeral : Nat) :
    ∀ (fuel P q : Nat), 1 ≤ P → P ≤ q → q ≤ 65535 → bound q = false →
      (∀ r, P ≤ r → r < q → bound r = true) → q - P < fuel →
      findAvailablePort (listenOf bound ephemeral) fuel P =
        ((List.range' P (q - P + 1)).map Event.listen ++ [Event.serverClose q],
          Settled.resolved q) := by
  intro fuel
  induction fuel with
  | zero => intro P q _ _ _ _ _ h; omega
  | succ n ih =>
    intro P q hlo hPq hhi hq hlt hfuel
    rcases Nat.eq_or_lt_of_le hPq with heq | hlt2
    · subst heq
      simp [findAvailablePort, listenOf_port bound ephemeral P hlo hhi, hq]
    · have hb : bound P = true := hlt P (Nat.le_refl P) hlt2
      have hrec := ih (P + 1) q (by omega) hlt2 hhi hq (fun r h1 h2 => hlt r (by omega) h2)
        (by omega)
      have hlen : q - P + 1 = (q - (P + 1) + 1) + 1 := by omega
      rw [hlen]
      simp only [findAvailablePort, listenOf_port bound ephemeral P hlo (by omega), hb, if_true,
        hrec]
      rfl

theorem least_free (bound : Nat → Bool) (P : Nat)
    (hfree : ∃ r, P ≤ r ∧ r ≤ 65535 ∧ bound r = false) :
    ∃ q, P ≤ q ∧ q ≤ 65535 ∧ bound q = false ∧ ∀ r, P ≤ r → r < q → bound r = true := by
  classical
  have hmin : ∀ r, P ≤ r → r < Nat.find hfree → bound r = true := by
    intro r h1 h2
    have hnot := Nat.find_min hfree h2
    cases hb : bound r with
    | true => rfl
    | false =>
      exact absurd ⟨h1, by have := (Nat.find_spec hfree).2.1; omega, hb⟩ hnot
  exact ⟨Nat.find hfree, (Nat.find_spec hfree).1, (Nat.find_spec hfree).2.1,
    (Nat.find_spec hfree).2.2, hmin⟩

/-- C1: with availability of the ports 1..65535 a fixed predicate `bound`, a
starting port `P` and some port at or above `P` free, `findAvailablePort(P)`
resolves to the least free port `q` at or above `P`: `q = P` when `P` is free;
when `P` is bound, `q > P`, `q` is free and every port in `[P, q)` is bound.
The ports listened on are `P`, `P + 1`, ..., `q`, each once and in this order,
and the server that got `q` is closed before the promise resolves.  Any
observation of more than `q - P` listen attempts sees this result. -/
theorem findAvailablePort_least (bound : Nat → Bool) (ephemeral P : Nat) (hlo : 1 ≤ P)
    (hfree : ∃ r, P ≤ r ∧ r ≤ 65535 ∧ bound r = false) :
    ∃ q, P ≤ q ∧ q ≤ 65535 ∧ bound q = false ∧ (∀ r, P ≤ r → r < q → bound r = true) ∧
      (bound P = false → q = P) ∧ (bound P = true → P < q) ∧
      ∀ fuel, q - P < fuel →
        findAvailablePort (listenOf bound ephemeral) fuel P =
          ((List.range' P (q - P + 1)).map Event.listen ++ [Event.serverClose q],
            Settled.resolved q) := by
  obtain ⟨q, hPq, hhi, hq, hmin⟩ := least_free bound P hfree
  refine ⟨q, hPq, hhi, hq, hmin, ?_, ?_, ?_⟩
  · intro hP
    rcases Nat.eq_or_lt_of_le hPq with h | h
    · exact h.symm
    · have := hmin P (Nat.le_refl P) h
      rw [hP] at this
      cases this
  · intro hP
    rcases Nat.eq_or_lt_of_le hPq with h | h
    · rw [← h, hP] at hq
      cases hq
    · exact h
  · intro fuel hfuel
    exact findAvailablePort_search bound ephemeral fuel P q hlo hPq hhi hq hmin hfuel

/-- Witness for C1: the search from 3457 with 3457 and 3458 bound, where 3459
is free. -/
theorem findAvailablePort_least_witness :
    1 ≤ 3457 ∧ (∃ r, 3457 ≤ r ∧ r ≤ 65535 ∧ boundBelow3459 r = false) ∧
    ∃ q, 3457 ≤ q ∧ q ≤ 65535 ∧ boundBelow3459 q = false ∧
      (∀ r, 3457 ≤ r → r < q → boundBelow3459 r = true) ∧
      (boundBelow3459 3457 = false → q = 3457) ∧ (boundBelow3459 3457 = true → 3457 < q) ∧
      ∀ fuel, q - 3457 < fuel →
        findAvailablePort (listenOf boundBelow3459 49152) fuel 3457 =
          ((List.range' 3457 (q - 3457 + 1)).map Event.listen ++ [Event.serverClose q],
            Settled.resolved q) :=
  ⟨by decide, ⟨3459, by decide, by decide, by decide⟩,
   findAvailablePort_least boundBelow3459 49152 3457 (by decide)
     ⟨3459, by decide, by decide, by decide⟩⟩
theorem countP_isConnect_refusals (port n : Nat) (t : List Event) :
    (refusals port n ++ t).countP isConnect = n + t.countP isConnect := by
  induction n with
  | zero => simp [refusals]
  | succ k ih =>
    simp only [refusals, List.cons_append, List.countP_cons, ih, isConnect]
    simp
    omega

theorem waits_refusals (port n : Nat) (t : List Event) :
    waits (refusals port n ++ t) = List.replicate n 500 ++ waits t := by
  induction n with
  | zero => simp [refusals]
  | succ k ih => simp [refusals, waits, ih, List.replicate_succ]

theorem attempt_refused (answers : Nat → Nat → Answer) (port : Nat) :
    ∀ (n made : Nat), (∀ i, i < n → answers port (made + i) = Answer.refuse) →
      attempt answers port n made =
        (refusals port n ++ [Event.probeReject "Server failed to start"],
          Except.error "Server failed to start", []) := by
  intro n
  induction n with
  | zero => intro made _; rfl
  | succ k ih =>
    intro made h
    have h0 : answers port made = Answer.refuse := by simpa using h 0 (Nat.succ_pos k)
    have hrec := ih (made + 1) (fun i hi => by
      have := h (i + 1) (by omega)
      rwa [show made + 1 + i = made + (i + 1) by omega])
    simp [attempt, h0, hrec, refusals]

theorem attempt_accepted (answers : Nat → Nat → Answer) (port : Nat) :
    ∀ (j n made : Nat), j < n → (∀ i, i < j → answers port (made + i) = Answer.refuse) →
      answers port (made + j) = Answer.accept →
      attempt answers port n made =
        (refusals port j ++ [Event.connect port, Event.clientEnd, Event.probeResolve],
          Except.ok (), []) := by
  intro j
  induction j with
  | zero =>
    intro n made hn _ hacc
    obtain ⟨m, rfl⟩ : ∃ m, n = m + 1 := ⟨n - 1, by omega⟩
    have hacc0 : answers port made = Answer.accept := by simpa using hacc
    simp [attempt, hacc0, refusals]
  | succ k ih =>
    intro n made hn h hacc
    obtain ⟨m, rfl⟩ : ∃ m, n = m + 1 := ⟨n - 1, by omega⟩
    have h0 : answers port made = Answer.refuse := by simpa using h 0 (Nat.succ_pos k)
    have hrec := ih m (made + 1) (by omega) (fun i hi => by
      have := h (i + 1) (by omega)
      rwa [show made + 1 + i = made + (i + 1) by omega])
      (by rwa [show made + 1 + k = made + (k + 1) by omega])
    simp [attempt, h0, hrec, refusals]

/-- C2: when every one of the `n` connection attempts is refused (`n` is the
`retries` argument, 60 when it is omitted), `waitForServer(port, n)` rejects
with the error `Server failed to start`; its trace is `n` rounds of one
connection attempt followed by one 500 ms timer, then the rejection, and
nothing happens after the rejection.  So there are exactly `n` attempts and `n`
waits of 500 ms, `n * 500` ms in total (30000 with the default), and with
`n = 0` the rejection comes with no attempt and no wait. -/
theorem waitForServer_never_accepted (answers : Nat → Nat → Answer) (port : Nat)
    (retries : Option Nat)
    (hrefuse : ∀ i, i < retries.getD 60 → answers port i = Answer.refuse) :
    (waitForServer answers port retries).2.1 = Except.error "Server failed to start" ∧
    (waitForServer answers port retries).1 =
      refusals port (retries.getD 60) ++ [Event.probeReject "Server failed to start"] ∧
    (waitForServer answers port retries).2.2 = [] ∧
    (waitForServer answers port retries).1.countP isConnect = retries.getD 60 ∧
    waits (waitForServer answers port retries).1 = List.replicate (retries.getD 60) 500 ∧
    (waits (waitForServer answers port retries).1).sum = retries.getD 60 * 500 ∧
    (retries = none → (waits (waitForServer answers port retries).1).sum = 30000) ∧
    (retries = some 0 →
      (waitForServer answers port retries).1 = [Event.probeReject "Server failed to start"]) := by
  have key := attempt_refused answers port (retries.getD 60) 0
    (fun i hi => by simpa using hrefuse i hi)
  have htr : (waitForServer answers port retries).1 =
      refusals port (retries.getD 60) ++ [Event.probeReject "Server failed to start"] := by
    simp [waitForServer, key]
  have hw : waits (waitForServer answers port retries).1 =
      List.replicate (retries.getD 60) 500 := by
    rw [htr, waits_refusals]; simp [waits]
  refine ⟨by simp [waitForServer, key], htr, by simp [waitForServer, key], ?_, hw, ?_, ?_, ?_⟩
  · rw [htr, countP_isConnect_refusals]; simp [isConnect]
  · rw [hw]; simp
  · intro hnone; rw [hw, hnone]; simp
  · intro hzero; rw [htr, hzero]; rfl

/-- Witness for C2: a server that refuses every connection, probed with the
default retry count. -/
theorem waitForServer_never_accepted_witness :
    (waitForServer (fun _ _ => Answer.refuse) 3457 none).2.1 =
      Except.error "Server failed to start" ∧
    (waitForServer (fun _ _ => Answer.refuse) 3457 none).1.countP isConnect = 60 ∧
    (waits (waitForServer (fun _ _ => Answer.refuse) 3457 none).1).sum = 30000 :=
  ⟨(waitForServer_never_accepted (fun _ _ => Answer.refuse) 3457 none (fun _ _ => rfl)).1,
   (waitForServer_never_accepted (fun _ _ => Answer.refuse) 3457 none (fun _ _ => rfl)).2.2.2.1,
   (waitForServer_never_accepted (fun _ _ => Answer.refuse) 3457 none
     (fun _ _ => rfl)).2.2.2.2.2.2.1 rfl⟩

/-- When attempts `1 .. k-1` are refused and attempt `k` is accepted with no
`'error'` on its socket afterwards (`1 ≤ k ≤ n`), `waitForServer(port, n)`
resolves after `k-1` rounds of one connection attempt and one 500 ms timer, the
`k`-th attempt and `client.end()`, and does nothing after: `k` attempts and
`k-1` waits in all. -/
theorem waitForServer_accepted_clean (answers : Nat → Nat → Answer) (port : Nat)
    (retries : Option Nat) (k : Nat) (hk : 1 ≤ k) (hkn : k ≤ retries.getD 60)
    (hrefuse : ∀ i, i < k - 1 → answers port i = Answer.refuse)
    (haccept : answers port (k - 1) = Answer.accept) :
    (waitForServer answers port retries).2.1 = Except.ok () ∧
    (waitForServer answers port retries).1 =
      refusals port (k - 1) ++ [Event.connect port, Event.clientEnd, Event.probeResolve] ∧
    (waitForServer answers port retries).2.2 = [] ∧
    (waitForServer answers port retries).1.countP isConnect = k ∧
    waits (waitForServer answers port retries).1 = List.replicate (k - 1) 500 := by
  have key := attempt_accepted answers port (k - 1) (retries.getD 60) 0 (by omega)
    (fun i hi => by simpa using hrefuse i hi) (by simpa using haccept)
  have htr : (waitForServer answers port retries).1 =
      refusals port (k - 1) ++ [Event.connect port, Event.clientEnd, Event.probeResolve] := by
    simp [waitForServer, key]
  refine ⟨by simp [waitForServer, key], htr, by simp [waitForServer, key], ?_, ?_⟩
  · rw [htr, countP_isConnect_refusals]; simp [isConnect]; omega
  · rw [htr, waits_refusals]; simp [waits]

/-- C3 fails on the code when the accepted socket emits `'error'` after the
connect callback: `waitForServer(3457, 3)` against a server that accepts every
connection and then resets it resolves at the first attempt, with no wait
before it and `client.end()` before `resolve()`, and then goes on: the
`'error'` listener sets the 500 ms timer and calls `attempt(2)`, and so on down
to `attempt(0)`.  In all there are 3 connection attempts and 3 timers, where
the claim has one attempt, no wait and no attempt after the accepted one. -/
theorem waitForServer_retries_after_accept :
    waitForServer (fun _ _ => Answer.acceptThenError) 3457 (some 3) =
      ([Event.connect 3457, Event.clientEnd, Event.probeResolve], Except.ok (),
       [Event.setTimeout 500, Event.connect 3457, Event.clientEnd, Event.probeResolve,
        Event.setTimeout 500, Event.connect 3457, Event.clientEnd, Event.probeResolve,
        Event.setTimeout 500, Event.probeReject "Server failed to start"]) ∧
    ((waitForServer (fun _ _ => Answer.acceptThenError) 3457 (some 3)).1 ++
      (waitForServer (fun _ _ => Answer.acceptThenError) 3457 (some 3)).2.2).countP
        isConnect = 3 ∧
    waits ((waitForServer (fun _ _ => Answer.acceptThenError) 3457 (some 3)).1 ++
      (waitForServer (fun _ _ => Answer.acceptThenError) 3457 (some 3)).2.2) =
        [500, 500, 500] := by
  refine ⟨rfl, rfl, rfl⟩
theorem objGet_objSet (o : List (String × String)) (k v k2 : String) :
    objGet (objSet o k v) k2 = if k2 = k then some v else objGet o k2 := by
  induction o with
  | nil =>
    by_cases h : k = k2
    · simp [objSet, objGet, h]
    · have h2 : ¬ k2 = k := fun e => h e.symm
      simp [objSet, objGet, h, h2]
  | cons kv rest ih =>
    obtain ⟨k0, v0⟩ := kv
    by_cases h0 : k0 = k
    · subst h0
      by_cases h : k0 = k2
      · simp [objSet, objGet, h]
      · have h2 : ¬ k2 = k0 := fun e => h e.symm
        simp [objSet, objGet, h, h2]
    · by_cases h : k0 = k2
      · subst h
        simp [objSet, objGet, h0]
      · simp [objSet, objGet, h0, h, ih]

/-- C4: `startNextServer(p)` issues exactly one `spawn`; its argument list is
`[cmd, '-p', String(p)]` with `cmd = 'start'` when packaged and `'dev'`
otherwise, and its environment reads `String(p)` at `PORT`, `'production'` or
`'development'` at `NODE_ENV`, and the value of the parent environment at every
other key (absent keys stay absent). -/
theorem startNextServer_spawn (w : World) (p : Nat) (s : AppState) :
    (startNextServer w p s).2.countP isSpawn = 1 ∧
    (startNextServer w p s).2.filter isSpawn =
      [Event.spawn (nextBin w) [if w.isPackaged then "start" else "dev", "-p", toString p]
        (appPath w) (childEnv w p) "pipe"] ∧
    ∀ k, objGet (childEnv w p) k =
      if k = "PORT" then some (toString p)
      else if k = "NODE_ENV" then some (if w.isPackaged then "production" else "development")
      else objGet w.env k := by
  refine ⟨?_, ?_, ?_⟩
  · cases hp : w.isPackaged <;> simp [startNextServer, spawnCall, hp, isSpawn, List.countP_cons]
  · cases hp : w.isPackaged <;> simp [startNextServer, spawnCall, hp, isSpawn, List.filter_cons]
  · intro k
    simp only [childEnv, objGet_objSet]
    by_cases h1 : k = "NODE_ENV"
    · subst h1
      simp
    · simp [h1]
theorem loadedURLs_createWindow (p : Nat) (s : AppState) :
    loadedURLs (createWindow p s).2 = [windowURL p] := rfl

/-- C7, as written, fails at port 3457: the URL loaded is
`http://localhost:3457`, which is not `http://localhost:3457/`. -/
theorem createWindow_url_3457 :
    loadedURLs (createWindow 3457 AppState.init).2 = ["http://localhost:3457"] ∧
    loadedURLs (createWindow 3457 AppState.init).2 ≠
      ["http://localhost:" ++ toString 3457 ++ "/"] := by
  decide

/-- C7, amended: for every port `p`, `createWindow(p)` loads exactly one URL,
the string `http://localhost:` followed by the decimal rendering of `p`, with
no `/` after it. -/
theorem createWindow_url (p : Nat) (s : AppState) :
    loadedURLs (createWindow p s).2 = ["http://localhost:" ++ toString p] ∧
    loadedURLs (createWindow p s).2 ≠ ["http://localhost:" ++ toString p ++ "/"] := by
  refine ⟨rfl, ?_⟩
  rw [loadedURLs_createWindow]
  intro h
  have h2 := congrArg (fun l => (l.map String.length).sum) h
  simp [windowURL, String.length_append] at h2
  exact absurd h2 (by decide)
/-- C9: for every platform string, the `window-all-closed` handler calls
`app.quit()` if and only if the platform is not `'darwin'`; on `'darwin'` it
does nothing at all.  It never changes the state. -/
theorem windowAllClosed_quits_iff (platform : String) (s : AppState) :
    (Event.quit ∈ (windowAllClosed platform s).2 ↔ platform ≠ "darwin") ∧
    (windowAllClosed platform s).2 = (if platform = "darwin" then [] else [Event.quit]) ∧
    (windowAllClosed platform s).1 = s ∧
    windowAllClosed "darwin" s = (s, []) := by
  by_cases h : platform = "darwin"
  · subst h
    simp [windowAllClosed]
  · simp [windowAllClosed, h]
theorem findAvailablePort_sound (bound : Nat → Bool) (ephemeral : Nat) :
    ∀ (fuel P q : Nat), 1 ≤ P →
      (findAvailablePort (listenOf bound ephemeral) fuel P).2 = Settled.resolved q →
      P ≤ q ∧ q ≤ 65535 ∧ bound q = false ∧ ∀ r, P ≤ r → r < q → bound r = true := by
  intro fuel
  induction fuel with
  | zero => intro P q _ h; simp [findAvailablePort] at h
  | succ n ih =>
    intro P q hlo h
    by_cases hhi : P ≤ 65535
    · cases hb : bound P with
      | false =>
        simp [findAvailablePort, listenOf_port bound ephemeral P hlo hhi, hb] at h
        subst h
        exact ⟨Nat.le_refl _, hhi, hb, fun r h1 h2 => by omega⟩
      | true =>
        simp [findAvailablePort, listenOf_port bound ephemeral P hlo hhi, hb] at h
        obtain ⟨h1, h2, h3, h4⟩ := ih (P + 1) q (by omega) h
        refine ⟨by omega, h2, h3, fun r hr1 hr2 => ?_⟩
        rcases Nat.eq_or_lt_of_le hr1 with heq | hlt
        · rw [← heq]; exact hb
        · exact h4 r hlt hr2
    · simp [findAvailablePort, listenOf_above bound ephemeral P (by omega)] at h

theorem findAvailablePort_exhausted (bound : Nat → Bool) (ephemeral : Nat) :
    ∀ (fuel P : Nat), 1 ≤ P → P ≤ 65536 → (∀ r, P ≤ r → r ≤ 65535 → bound r = true) →
      65536 - P < fuel →
      findAvailablePort (listenOf bound ephemeral) fuel P =
        ((List.range' P (65536 - P + 1)).map Event.listen,
          Settled.rejected "ERR_SOCKET_BAD_PORT") := by
  intro fuel
  induction fuel with
  | zero => intro P _ _ _ h; omega
  | succ n ih =>
    intro P hlo hhi hall hfuel
    rcases Nat.eq_or_lt_of_le hhi with heq | hlt
    · subst heq
      simp [findAvailablePort, listenOf_above bound ephemeral 65536 (by omega)]
    · have hb : bound P = true := hall P (Nat.le_refl P) (by omega)
      have hrec := ih (P + 1) (by omega) (by omega) (fun r h1 h2 => hall r (by omega) h2)
        (by omega)
      have hlen : 65536 - P + 1 = (65536 - (P + 1) + 1) + 1 := by omega
      rw [hlen]
      simp only [findAvailablePort, listenOf_port bound ephemeral P hlo (by omega), hb, if_true,
        hrec]
      rfl

/-- C10: for every starting port `P` in 1..65535 and every assignment of
bound/free to the ports, a port that `findAvailablePort(P)` resolves to lies in
1..65535 (and is free and at least `P`).  When some port in `P`..65535 is free
the search resolves, within `65536 - P` listen attempts; when all of them are
bound it listens on `P`, ..., 65535, then on 65536, where `server.listen`
throws and the promise is rejected: it never resolves to a candidate above
65535. -/
theorem findAvailablePort_in_range (bound : Nat → Bool) (ephemeral P : Nat)
    (hlo : 1 ≤ P) (hhi : P ≤ 65535) :
    (∀ fuel q, (findAvailablePort (listenOf bound ephemeral) fuel P).2 = Settled.resolved q →
      1 ≤ q ∧ q ≤ 65535 ∧ P ≤ q ∧ bound q = false) ∧
    ((∃ r, P ≤ r ∧ r ≤ 65535 ∧ bound r = false) →
      ∃ q, 1 ≤ q ∧ q ≤ 65535 ∧ ∀ fuel, 65535 - P < fuel →
        (findAvailablePort (listenOf bound ephemeral) fuel P).2 = Settled.resolved q) ∧
    ((∀ r, P ≤ r → r ≤ 65535 → bound r = true) →
      ∀ fuel, 65536 - P < fuel →
        findAvailablePort (listenOf bound ephemeral) fuel P =
          ((List.range' P (65536 - P + 1)).map Event.listen,
            Settled.rejected "ERR_SOCKET_BAD_PORT")) := by
  refine ⟨?_, ?_, ?_⟩
  · intro fuel q hres
    obtain ⟨h1, h2, h3, _⟩ := findAvailablePort_sound bound ephemeral fuel P q hlo hres
    exact ⟨by omega, h2, h1, h3⟩
  · intro hfree
    obtain ⟨q, hPq, hq2, hq, hmin⟩ := least_free bound P hfree
    refine ⟨q, by omega, hq2, ?_⟩
    intro fuel hfuel
    rw [findAvailablePort_search bound ephemeral fuel P q hlo hPq hq2 hq hmin (by omega)]
  · intro hall fuel hfuel
    exact findAvailablePort_exhausted bound ephemeral fuel P hlo (by omega) hall hfuel

/-- Witness for C10: from 3457 with 3457 and 3458 bound the search resolves to
3459; from 65535 with that port bound it listens on 65535 and 65536 and is
rejected. -/
theorem findAvailablePort_in_range_witness :
    1 ≤ 3457 ∧ 3457 ≤ 65535 ∧
    (findAvailablePort (listenOf boundBelow3459 49152) 5 3457).2 = Settled.resolved 3459 ∧
    (1 ≤ 3459 ∧ 3459 ≤ 65535 ∧ 3457 ≤ 3459 ∧ boundBelow3459 3459 = false) ∧
    (∃ q, 1 ≤ q ∧ q ≤ 65535 ∧ ∀ fuel, 65535 - 3457 < fuel →
      (findAvailablePort (listenOf boundBelow3459 49152) fuel 3457).2 = Settled.resolved q) ∧
    findAvailablePort (listenOf (fun p => decide (p = 65535)) 49152) 2 65535 =
      ((List.range' 65535 (65536 - 65535 + 1)).map Event.listen,
        Settled.rejected "ERR_SOCKET_BAD_PORT") :=
  ⟨by decide, by decide, by decide,
   (findAvailablePort_in_range boundBelow3459 49152 3457 (by decide) (by decide)).1 5 3459
     (by decide),
   (findAvailablePort_in_range boundBelow3459 49152 3457 (by decide) (by decide)).2.1
     ⟨3459, by decide, by decide, by decide⟩,
   (findAvailablePort_in_range (fun p => decide (p = 65535)) 49152 65535 (by decide)
     (by decide)).2.2 (fun r h1 h2 => by
       have : r = 65535 := by omega
       subst this
       rfl) 2 (by decide)⟩
/-! ### Shape of the traces -/

theorem listens_append (a b : List Event) : listens (a ++ b) = listens a ++ listens b := by
  induction a with
  | nil => rfl
  | cons e rest ih => cases e <;> simp [listens, ih]

theorem listens_eq_nil (tr : List Event) (h : ∀ e ∈ tr, ∀ p, e ≠ Event.listen p) :
    listens tr = [] := by
  induction tr with
  | nil => rfl
  | cons e rest ih =>
    have hrest := ih (fun x hx => h x (List.mem_cons_of_mem _ hx))
    have he := h e (List.mem_cons_self _ _)
    cases e <;> simp_all [listens]

theorem alloc_events (listen : Nat → Listen) :
    ∀ (fuel P : Nat), ∀ e ∈ (findAvailablePort listen fuel P).1,
      (∃ p, e = Event.listen p) ∨ (∃ p, e = Event.serverClose p) := by
  intro fuel
  induction fuel with
  | zero => intro P e he; simp [findAvailablePort] at he
  | succ n ih =>
    intro P e he
    cases hl : listen P with
    | listening port =>
      simp [findAvailablePort, hl] at he
      rcases he with rfl | rfl
      · exact Or.inl ⟨_, rfl⟩
      · exact Or.inr ⟨_, rfl⟩
    | error =>
      simp [findAvailablePort, hl] at he
      rcases he with rfl | he
      · exact Or.inl ⟨_, rfl⟩
      · exact ih (P + 1) e he
    | throws code =>
      simp [findAvailablePort, hl] at he
      exact Or.inl ⟨_, he⟩

theorem alloc_listens (listen : Nat → Listen) :
    ∀ (fuel P : Nat), ∃ m, m ≤ fuel ∧ (fuel = 0 ∨ 0 < m) ∧
      listens (findAvailablePort listen fuel P).1 = List.range' P m := by
  intro fuel
  induction fuel with
  | zero => intro P; exact ⟨0, Nat.le_refl 0, Or.inl rfl, rfl⟩
  | succ n ih =>
    intro P
    cases hl : listen P with
    | listening port =>
      exact ⟨1, by omega, Or.inr (by omega), by simp [findAvailablePort, hl, listens]⟩
    | error =>
      obtain ⟨m, hm, _, hlist⟩ := ih (P + 1)
      refine ⟨m + 1, by omega, Or.inr (by omega), ?_⟩
      simp [findAvailablePort, hl, listens, hlist, List.range'_succ]
    | throws code =>
      exact ⟨1, by omega, Or.inr (by omega), by simp [findAvailablePort, hl, listens]⟩

theorem probe_events (answers : Nat → Nat → Answer) (port : Nat) :
    ∀ (n made : Nat), ∀ e, (e ∈ (attempt answers port n made).1 ∨
        e ∈ (attempt answers port n made).2.2) →
      e = Event.connect port ∨ e = Event.setTimeout 500 ∨ e = Event.clientEnd ∨
      e = Event.probeResolve ∨ e = Event.probeReject "Server failed to start" := by
  intro n
  induction n with
  | zero => intro made e he; simp [attempt] at he; simp [he]
  | succ k ih =>
    intro made e he
    cases ha : answers port made with
    | accept =>
      simp [attempt, ha] at he
      rcases he with rfl | rfl | rfl <;> simp
    | refuse =>
      simp [attempt, ha] at he
      rcases he with (rfl | rfl | he) | he
      · simp
      · simp
      · exact ih (made + 1) e (Or.inl he)
      · exact ih (made + 1) e (Or.inr he)
    | acceptThenError =>
      simp [attempt, ha] at he
      rcases he with (rfl | rfl | rfl) | rfl | he | he
      · simp
      · simp
      · simp
      · simp
      · exact ih (made + 1) e (Or.inl he)
      · exact ih (made + 1) e (Or.inr he)

theorem probe_ok_resolved (answers : Nat → Nat → Answer) (port : Nat) :
    ∀ (n made : Nat), (attempt answers port n made).2.1 = Except.ok () →
      Event.probeResolve ∈ (attempt answers port n made).1 := by
  intro n
  induction n with
  | zero => intro made h; simp [attempt] at h
  | succ k ih =>
    intro made h
    cases ha : answers port made with
    | accept => simp [attempt, ha]
    | refuse =>
      simp [attempt, ha] at h
      simp [attempt, ha, ih (made + 1) h]
    | acceptThenError => simp [attempt, ha]

theorem precedes_of_absent (p q : Event → Bool) (tr : List Event)
    (h : ∀ e ∈ tr, q e = false) : Precedes p q tr := by
  intro pre e post htr hq
  have he : e ∈ tr := by rw [htr]; simp
  rw [h e he] at hq
  cases hq

theorem precedes_append (p q : Event → Bool) (l1 l2 : List Event)
    (hq : ∀ e ∈ l1, q e = false) (hp : ∃ x ∈ l1, p x = true) :
    Precedes p q (l1 ++ l2) := by
  intro pre e post htr hqe
  obtain ⟨x, hx, hpx⟩ := hp
  rcases List.append_eq_append_iff.mp htr with ⟨a, ha, _⟩ | ⟨c, hc, hc2⟩
  · exact ⟨x, by rw [ha]; exact List.mem_append_left _ hx, hpx⟩
  · cases c with
    | nil =>
      refine ⟨x, ?_, hpx⟩
      rw [hc] at hx
      simpa using hx
    | cons y rest =>
      simp only [List.cons_append, List.cons.injEq] at hc2
      have hmem : e ∈ l1 := by rw [hc, hc2.1]; simp
      rw [hq e hmem] at hqe
      cases hqe

/-- The three ways the startup handler can go: the allocator has not resolved
(it is pending, or it has rejected), the probe is rejected, or the probe is
resolved. -/
theorem whenReady_cases (w : World) (fuel : Nat) (s : AppState) :
    ((∀ port, (findAvailablePort w.listen fuel PORT).2 ≠ Settled.resolved port) ∧
      whenReady w fuel s = (s, Event.buildMenu :: (findAvailablePort w.listen fuel PORT).1)) ∨
    (∃ port, (findAvailablePort w.listen fuel PORT).2 = Settled.resolved port ∧
      (∃ msg, (waitForServer w.answers port none).2.1 = Except.error msg) ∧
      whenReady w fuel s = ((startNextServer w port s).1,
        Event.buildMenu :: (findAvailablePort w.listen fuel PORT).1 ++
          (startNextServer w port s).2 ++ (waitForServer w.answers port none).1 ++
          [Event.consoleError "Next.js server did not start in time", Event.quit] ++
          (waitForServer w.answers port none).2.2)) ∨
    (∃ port, (findAvailablePort w.listen fuel PORT).2 = Settled.resolved port ∧
      (waitForServer w.answers port none).2.1 = Except.ok () ∧
      whenReady w fuel s =
        ({ (createWindow port (startNextServer w port s).1).1 with activate := some port },
        Event.buildMenu :: (findAvailablePort w.listen fuel PORT).1 ++
          (startNextServer w port s).2 ++ (waitForServer w.answers port none).1 ++
          (createWindow port (startNextServer w port s).1).2 ++ [Event.onActivate] ++
          (waitForServer w.answers port none).2.2)) := by
  cases ha : (findAvailablePort w.listen fuel PORT).2 with
  | pending => left; exact ⟨fun port h => (by cases h), by simp [whenReady, ha]⟩
  | rejected code => left; exact ⟨fun port h => (by cases h), by simp [whenReady, ha]⟩
  | resolved port =>
    right
    cases hp : (waitForServer w.answers port none).2.1 with
    | error msg => left; exact ⟨port, rfl, ⟨msg, hp⟩, by simp [whenReady, ha, hp]⟩
    | ok u => right; exact ⟨port, rfl, hp, by simp [whenReady, ha, hp]⟩
theorem alloc_absent (f : Event → Bool) (hl : ∀ p, f (Event.listen p) = false)
    (hc : ∀ p, f (Event.serverClose p) = false) (listen : Nat → Listen) (fuel P : Nat) :
    ∀ e ∈ (findAvailablePort listen fuel P).1, f e = false := by
  intro e he
  rcases alloc_events listen fuel P e he with ⟨p, rfl⟩ | ⟨p, rfl⟩
  · exact hl p
  · exact hc p

theorem probe_absent (f : Event → Bool) (h1 : ∀ p, f (Event.connect p) = false)
    (h2 : ∀ ms, f (Event.setTimeout ms) = false) (h3 : f Event.clientEnd = false)
    (h4 : f Event.probeResolve = false) (h5 : ∀ m, f (Event.probeReject m) = false)
    (answers : Nat → Nat → Answer) (port : Nat) (retries : Option Nat) :
    ∀ e, (e ∈ (waitForServer answers port retries).1 ∨
      e ∈ (waitForServer answers port retries).2.2) → f e = false := by
  intro e he
  rcases probe_events answers port _ _ e he with rfl | rfl | rfl | rfl | rfl
  · exact h1 _
  · exact h2 _
  · exact h3
  · exact h4
  · exact h5 _

theorem isSpawn_spawnCall (w : World) (port : Nat) : isSpawn (spawnCall w port) = true := by
  cases hp : w.isPackaged <;> simp [spawnCall, hp, isSpawn]

theorem isConnect_spawnCall (w : World) (port : Nat) : isConnect (spawnCall w port) = false := by
  cases hp : w.isPackaged <;> simp [spawnCall, hp, isConnect]

theorem isNewWindow_spawnCall (w : World) (port : Nat) :
    isNewWindow (spawnCall w port) = false := by
  cases hp : w.isPackaged <;> simp [spawnCall, hp, isNewWindow]

theorem isKill_spawnCall (w : World) (port : Nat) : isKill (spawnCall w port) = false := by
  cases hp : w.isPackaged <;> simp [spawnCall, hp, isKill]

theorem spawnCall_ne_onActivate (w : World) (port : Nat) :
    Event.onActivate ≠ spawnCall w port := by
  cases hp : w.isPackaged <;> simp [spawnCall, hp]

theorem whenReady_spawn_before_connect (w : World) (fuel : Nat) (s : AppState) :
    Precedes isSpawn isConnect (whenReady w fuel s).2 := by
  have hA := alloc_absent isConnect (fun _ => rfl) (fun _ => rfl) w.listen fuel PORT
  have hfront : ∀ port, ∀ e ∈ Event.buildMenu :: (findAvailablePort w.listen fuel PORT).1 ++
      [spawnCall w port], isConnect e = false := by
    intro port e he
    rcases List.mem_append.mp he with he | he
    · rcases List.mem_cons.mp he with rfl | he
      · rfl
      · exact hA e he
    · rw [List.mem_singleton.mp he]
      exact isConnect_spawnCall w port
  rcases whenReady_cases w fuel s with ⟨_, hw⟩ | ⟨port, _, _, hw⟩ | ⟨port, _, _, hw⟩
  · rw [hw]
    apply precedes_of_absent
    intro e he
    rcases List.mem_cons.mp he with rfl | he
    · rfl
    · exact hA e he
  · have hsplit : (whenReady w fuel s).2 =
        (Event.buildMenu :: (findAvailablePort w.listen fuel PORT).1 ++ [spawnCall w port]) ++
          ([Event.childOn "stdout", Event.childOn "stderr", Event.childOn "error"] ++
            (waitForServer w.answers port none).1 ++
            [Event.consoleError "Next.js server did not start in time", Event.quit] ++
            (waitForServer w.answers port none).2.2) := by
      rw [hw]; simp [startNextServer]
    rw [hsplit]
    exact precedes_append _ _ _ _ (hfront port)
      ⟨spawnCall w port, by simp, isSpawn_spawnCall w port⟩
  · have hsplit : (whenReady w fuel s).2 =
        (Event.buildMenu :: (findAvailablePort w.listen fuel PORT).1 ++ [spawnCall w port]) ++
          ([Event.childOn "stdout", Event.childOn "stderr", Event.childOn "error"] ++
            (waitForServer w.answers port none).1 ++
            (createWindow port (startNextServer w port s).1).2 ++ [Event.onActivate] ++
            (waitForServer w.answers port none).2.2) := by
      rw [hw]; simp [startNextServer]
    rw [hsplit]
    exact precedes_append _ _ _ _ (hfront port)
      ⟨spawnCall w port, by simp, isSpawn_spawnCall w port⟩

/-- No window is created by the allocator, the spawn or the probe. -/
theorem startup_front_no_window (w : World) (fuel : Nat) (s : AppState) (port : Nat) :
    ∀ e ∈ Event.buildMenu :: (findAvailablePort w.listen fuel PORT).1 ++
      (startNextServer w port s).2 ++ (waitForServer w.answers port none).1,
      isNewWindow e = false := by
  have hA := alloc_absent isNewWindow (fun _ => rfl) (fun _ => rfl) w.listen fuel PORT
  have hP := probe_absent isNewWindow (fun _ => rfl) (fun _ => rfl) rfl rfl
    (fun _ => rfl) w.answers port none
  intro e he
  rcases List.mem_append.mp he with he | he
  · rcases List.mem_append.mp he with he | he
    · rcases List.mem_cons.mp he with rfl | he
      · rfl
      · exact hA e he
    · simp only [startNextServer, List.mem_cons, List.mem_singleton, List.not_mem_nil,
        or_false] at he
      rcases he with rfl | rfl | rfl | rfl
      · exact isNewWindow_spawnCall w port
      · rfl
      · rfl
      · rfl
  · exact hP e (Or.inl he)

/-- No window is created by a startup whose probe is rejected. -/
theorem failed_startup_no_window (w : World) (fuel : Nat) (s : AppState) (port : Nat) :
    ∀ e ∈ Event.buildMenu :: (findAvailablePort w.listen fuel PORT).1 ++
      (startNextServer w port s).2 ++ (waitForServer w.answers port none).1 ++
      [Event.consoleError "Next.js server did not start in time", Event.quit] ++
      (waitForServer w.answers port none).2.2,
      isNewWindow e = false := by
  have hP := probe_absent isNewWindow (fun _ => rfl) (fun _ => rfl) rfl rfl
    (fun _ => rfl) w.answers port none
  intro e he
  rcases List.mem_append.mp he with he | he
  · rcases List.mem_append.mp he with he | he
    · exact startup_front_no_window w fuel s port e he
    · simp only [List.mem_cons, List.mem_singleton, List.not_mem_nil, or_false] at he
      rcases he with rfl | rfl
      · rfl
      · rfl
  · exact hP e (Or.inr he)

theorem whenReady_window_after_probe (w : World) (fuel : Nat) (s : AppState) :
    Precedes isProbeResolve isNewWindow (whenReady w fuel s).2 := by
  have hA := alloc_absent isNewWindow (fun _ => rfl) (fun _ => rfl) w.listen fuel PORT
  rcases whenReady_cases w fuel s with ⟨_, hw⟩ | ⟨port, _, _, hw⟩ | ⟨port, _, hok, hw⟩
  · rw [hw]
    apply precedes_of_absent
    intro e he
    rcases List.mem_cons.mp he with rfl | he
    · rfl
    · exact hA e he
  · rw [hw]
    exact precedes_of_absent _ _ _ (failed_startup_no_window w fuel s port)
  · have hsplit : (whenReady w fuel s).2 =
        (Event.buildMenu :: (findAvailablePort w.listen fuel PORT).1 ++
          (startNextServer w port s).2 ++ (waitForServer w.answers port none).1) ++
          ((createWindow port (startNextServer w port s).1).2 ++ [Event.onActivate] ++
            (waitForServer w.answers port none).2.2) := by
      rw [hw]; simp
    rw [hsplit]
    apply precedes_append _ _ _ _ (startup_front_no_window w fuel s port)
    refine ⟨Event.probeResolve, ?_, rfl⟩
    exact List.mem_append_right _ (probe_ok_resolved w.answers port 60 0 hok)
/-- Where an event of the startup handler comes from. -/
theorem mem_whenReady (w : World) (fuel : Nat) (s : AppState) (e : Event)
    (he : e ∈ (whenReady w fuel s).2) :
    e = Event.buildMenu ∨ e ∈ (findAvailablePort w.listen fuel PORT).1 ∨
    ∃ port, (findAvailablePort w.listen fuel PORT).2 = Settled.resolved port ∧
      (e = spawnCall w port ∨ (∃ x, e = Event.childOn x) ∨
       (e ∈ (waitForServer w.answers port none).1 ∨
         e ∈ (waitForServer w.answers port none).2.2) ∨
       ((∃ msg, (waitForServer w.answers port none).2.1 = Except.error msg) ∧
         (e = Event.consoleError "Next.js server did not start in time" ∨ e = Event.quit)) ∨
       ((waitForServer w.answers port none).2.1 = Except.ok () ∧
         (e = Event.newWindow 1440 900 1024 680 ∨ e = Event.loadURL (windowURL port) ∨
          e = Event.setWindowOpenHandler ∨ e = Event.onClosed ∨ e = Event.onActivate))) := by
  have hfront : ∀ port, (findAvailablePort w.listen fuel PORT).2 = Settled.resolved port →
      e ∈ Event.buildMenu :: (findAvailablePort w.listen fuel PORT).1 ++
        (startNextServer w port s).2 ++ (waitForServer w.answers port none).1 →
      e = Event.buildMenu ∨ e ∈ (findAvailablePort w.listen fuel PORT).1 ∨
      ∃ port, (findAvailablePort w.listen fuel PORT).2 = Settled.resolved port ∧
        (e = spawnCall w port ∨ (∃ x, e = Event.childOn x) ∨
         (e ∈ (waitForServer w.answers port none).1 ∨
           e ∈ (waitForServer w.answers port none).2.2) ∨
         ((∃ msg, (waitForServer w.answers port none).2.1 = Except.error msg) ∧
           (e = Event.consoleError "Next.js server did not start in time" ∨ e = Event.quit)) ∨
         ((waitForServer w.answers port none).2.1 = Except.ok () ∧
           (e = Event.newWindow 1440 900 1024 680 ∨ e = Event.loadURL (windowURL port) ∨
            e = Event.setWindowOpenHandler ∨ e = Event.onClosed ∨ e = Event.onActivate))) := by
    intro port ha h
    rcases List.mem_append.mp h with h | h
    · rcases List.mem_append.mp h with h | h
      · rcases List.mem_cons.mp h with rfl | h
        · exact Or.inl rfl
        · exact Or.inr (Or.inl h)
      · simp only [startNextServer, List.mem_cons, List.not_mem_nil, or_false] at h
        rcases h with rfl | rfl | rfl | rfl
        · exact Or.inr (Or.inr ⟨port, ha, Or.inl rfl⟩)
        · exact Or.inr (Or.inr ⟨port, ha, Or.inr (Or.inl ⟨_, rfl⟩)⟩)
        · exact Or.inr (Or.inr ⟨port, ha, Or.inr (Or.inl ⟨_, rfl⟩)⟩)
        · exact Or.inr (Or.inr ⟨port, ha, Or.inr (Or.inl ⟨_, rfl⟩)⟩)
    · exact Or.inr (Or.inr ⟨port, ha, Or.inr (Or.inr (Or.inl (Or.inl h)))⟩)
  rcases whenReady_cases w fuel s with ⟨_, hw⟩ | ⟨port, ha, hp, hw⟩ | ⟨port, ha, hp, hw⟩
  · rw [hw] at he
    rcases List.mem_cons.mp he with rfl | he
    · exact Or.inl rfl
    · exact Or.inr (Or.inl he)
  · rw [hw] at he
    rcases List.mem_append.mp he with he | he
    · rcases List.mem_append.mp he with he | he
      · exact hfront port ha he
      · simp only [List.mem_cons, List.not_mem_nil, or_false] at he
        rcases he with rfl | rfl
        · exact Or.inr (Or.inr ⟨port, ha,
            Or.inr (Or.inr (Or.inr (Or.inl ⟨hp, Or.inl rfl⟩)))⟩)
        · exact Or.inr (Or.inr ⟨port, ha,
            Or.inr (Or.inr (Or.inr (Or.inl ⟨hp, Or.inr rfl⟩)))⟩)
    · exact Or.inr (Or.inr ⟨port, ha, Or.inr (Or.inr (Or.inl (Or.inr he)))⟩)
  · rw [hw] at he
    rcases List.mem_append.mp he with he | he
    · rcases List.mem_append.mp he with he | he
      · rcases List.mem_append.mp he with he | he
        · exact hfront port ha he
        · simp only [createWindow, List.mem_cons, List.not_mem_nil, or_false] at he
          rcases he with rfl | rfl | rfl | rfl
          · exact Or.inr (Or.inr ⟨port, ha,
              Or.inr (Or.inr (Or.inr (Or.inr ⟨hp, Or.inl rfl⟩)))⟩)
          · exact Or.inr (Or.inr ⟨port, ha,
              Or.inr (Or.inr (Or.inr (Or.inr ⟨hp, Or.inr (Or.inl rfl)⟩)))⟩)
          · exact Or.inr (Or.inr ⟨port, ha,
              Or.inr (Or.inr (Or.inr (Or.inr ⟨hp, Or.inr (Or.inr (Or.inl rfl))⟩)))⟩)
          · exact Or.inr (Or.inr ⟨port, ha,
              Or.inr (Or.inr (Or.inr (Or.inr ⟨hp, Or.inr (Or.inr (Or.inr (Or.inl rfl)))⟩)))⟩)
      · rw [List.mem_singleton.mp he]
        exact Or.inr (Or.inr ⟨port, ha,
          Or.inr (Or.inr (Or.inr (Or.inr ⟨hp, Or.inr (Or.inr (Or.inr (Or.inr rfl)))⟩)))⟩)
    · exact Or.inr (Or.inr ⟨port, ha, Or.inr (Or.inr (Or.inl (Or.inr he)))⟩)
/-! ### Events delivered after load -/

theorem dispatch_activate (w : World) (s : AppState) (i : Input) :
    (dispatch w s i).1.activate = s.activate := by
  cases i with
  | activate =>
    simp only [dispatch, activateHandler]
    cases ha : s.activate with
    | none => simp [ha]
    | some q =>
      by_cases hw : s.windows = 0 <;> simp [hw, createWindow, ha]
  | windowAllClosed =>
    simp only [dispatch, windowAllClosed]
    split <;> rfl
  | beforeQuit =>
    simp only [dispatch, beforeQuit]
    cases s.nextProcess <;> rfl
  | windowClosed => rfl

theorem dispatchAll_activate (w : World) :
    ∀ (inputs : List Input) (s : AppState), (dispatchAll w s inputs).1.activate = s.activate := by
  intro inputs
  induction inputs with
  | nil => intro s; rfl
  | cons i rest ih =>
    intro s
    simp only [dispatchAll]
    rw [ih, dispatch_activate]

theorem mem_dispatch (w : World) (s : AppState) (i : Input) (e : Event)
    (he : e ∈ (dispatch w s i).2) :
    e = Event.quit ∨ (∃ c, s.nextProcess = some c ∧ e = Event.kill c "SIGTERM") ∨
    ∃ q, s.activate = some q ∧ s.windows = 0 ∧
      (e = Event.newWindow 1440 900 1024 680 ∨ e = Event.loadURL (windowURL q) ∨
       e = Event.setWindowOpenHandler ∨ e = Event.onClosed) := by
  cases i with
  | activate =>
    simp only [dispatch, activateHandler] at he
    cases ha : s.activate with
    | none => simp [ha] at he
    | some q =>
      by_cases hw : s.windows = 0
      · simp only [ha, hw, if_true, createWindow, List.mem_cons, List.not_mem_nil,
          or_false] at he
        exact Or.inr (Or.inr ⟨q, rfl, hw, he⟩)
      · simp [ha, hw] at he
  | windowAllClosed =>
    simp only [dispatch, windowAllClosed] at he
    split at he
    · simp at he; exact Or.inl he
    · simp at he
  | beforeQuit =>
    simp only [dispatch, beforeQuit] at he
    cases hn : s.nextProcess with
    | none => simp [hn] at he
    | some c =>
      simp [hn] at he
      exact Or.inr (Or.inl ⟨c, rfl, he⟩)
  | windowClosed => simp [dispatch, windowClosed] at he

theorem mem_dispatchAll (w : World) :
    ∀ (inputs : List Input) (s : AppState), ∀ e ∈ (dispatchAll w s inputs).2,
      e = Event.quit ∨ (∃ c, e = Event.kill c "SIGTERM") ∨
      ∃ q, s.activate = some q ∧
        (e = Event.newWindow 1440 900 1024 680 ∨ e = Event.loadURL (windowURL q) ∨
         e = Event.setWindowOpenHandler ∨ e = Event.onClosed) := by
  intro inputs
  induction inputs with
  | nil => intro s e he; simp [dispatchAll] at he
  | cons i rest ih =>
    intro s e he
    simp only [dispatchAll, List.mem_append] at he
    rcases he with he | he
    · rcases mem_dispatch w s i e he with h | ⟨c, _, h⟩ | ⟨q, hq, _, h⟩
      · exact Or.inl h
      · exact Or.inr (Or.inl ⟨c, h⟩)
      · exact Or.inr (Or.inr ⟨q, hq, h⟩)
    · have := ih (dispatch w s i).1 e he
      rw [dispatch_activate] at this
      exact this

theorem dispatch_kills (w : World) (s : AppState) (i : Input) :
    (s.nextProcess = none →
      (dispatch w s i).2.countP isKill = 0 ∧ (dispatch w s i).1.nextProcess = none) ∧
    ((dispatch w s i).2.countP isKill = 0 ∨
      ((dispatch w s i).2.countP isKill = 1 ∧ (dispatch w s i).1.nextProcess = none)) := by
  cases i with
  | activate =>
    simp only [dispatch, activateHandler]
    cases ha : s.activate with
    | none => simp
    | some q => by_cases hw : s.windows = 0 <;> simp [hw, createWindow, isKill]
  | windowAllClosed =>
    simp only [dispatch, windowAllClosed]
    split <;> simp [isKill]
  | beforeQuit =>
    simp only [dispatch, beforeQuit]
    cases hn : s.nextProcess <;> simp [isKill, hn]
  | windowClosed => simp [dispatch, windowClosed]

theorem dispatchAll_no_child (w : World) :
    ∀ (inputs : List Input) (s : AppState), s.nextProcess = none →
      (dispatchAll w s inputs).2.countP isKill = 0 ∧
      (dispatchAll w s inputs).1.nextProcess = none := by
  intro inputs
  induction inputs with
  | nil => intro s hs; exact ⟨rfl, hs⟩
  | cons i rest ih =>
    intro s hs
    obtain ⟨h1, h2⟩ := (dispatch_kills w s i).1 hs
    obtain ⟨h3, h4⟩ := ih (dispatch w s i).1 h2
    exact ⟨by simp only [dispatchAll, List.countP_append, h1, h3], h4⟩

theorem dispatchAll_kills (w : World) :
    ∀ (inputs : List Input) (s : AppState), (dispatchAll w s inputs).2.countP isKill ≤ 1 := by
  intro inputs
  induction inputs with
  | nil => intro s; simp [dispatchAll]
  | cons i rest ih =>
    intro s
    simp only [dispatchAll, List.countP_append]
    rcases (dispatch_kills w s i).2 with h | ⟨h1, h2⟩
    · rw [h]
      have := ih (dispatch w s i).1
      omega
    · rw [h1, (dispatchAll_no_child w rest _ h2).1]

theorem whenReady_no_kill (w : World) (fuel : Nat) (s : AppState) :
    (whenReady w fuel s).2.countP isKill = 0 := by
  apply List.countP_eq_zero.mpr
  intro e he
  have hgoal : isKill e = false := by
    rcases mem_whenReady w fuel s e he with h | h | ⟨q, _, h⟩
    · rw [h]; rfl
    · rcases alloc_events _ _ _ _ h with ⟨p, hp⟩ | ⟨p, hp⟩ <;> rw [hp] <;> rfl
    · rcases h with h | ⟨x, h⟩ | h | ⟨_, h | h⟩ | ⟨_, h | h | h | h | h⟩
      · rw [h]; exact isKill_spawnCall w q
      · rw [h]; rfl
      · rcases probe_events _ _ _ _ _ h with h | h | h | h | h <;> rw [h] <;> rfl
      all_goals (rw [h]; rfl)
  simp [hgoal]

/-- C8: the `before-quit` handler, from any state.  With a child handle present
it sends exactly one `SIGTERM`, to that handle, and leaves the handle absent;
with the handle absent it sends nothing and leaves the state as it is.  Run a
second time it does nothing, so any number of runs in a row sends the signals
and yields the state of one run, and in a whole application run at most one
signal is ever sent. -/
theorem beforeQuit_once :
    (∀ s c, s.nextProcess = some c →
      beforeQuit s = ({ s with nextProcess := none }, [Event.kill c "SIGTERM"])) ∧
    (∀ s, s.nextProcess = none → beforeQuit s = (s, [])) ∧
    (∀ s, beforeQuit (beforeQuit s).1 = ((beforeQuit s).1, [])) ∧
    (∀ w s n, dispatchAll w s (List.replicate (n + 1) Input.beforeQuit) = beforeQuit s) ∧
    (∀ w fuel early later, (run w fuel early later).2.countP isKill ≤ 1) := by
  have h3 : ∀ s, beforeQuit (beforeQuit s).1 = ((beforeQuit s).1, []) := by
    intro s
    cases hn : s.nextProcess <;> simp [beforeQuit, hn]
  refine ⟨?_, ?_, h3, ?_, ?_⟩
  · intro s c hc
    simp [beforeQuit, hc]
  · intro s hn
    simp [beforeQuit, hn]
  · intro w s n
    have hgen : ∀ m, dispatchAll w (beforeQuit s).1 (List.replicate m Input.beforeQuit) =
        ((beforeQuit s).1, []) := by
      intro m
      induction m with
      | zero => rfl
      | succ j ihj =>
        simp only [List.replicate, dispatchAll, dispatch, h3, ihj, List.append_nil]
    rw [List.replicate_succ]
    simp only [dispatchAll, dispatch, hgen n, List.append_nil]
  · intro w fuel early later
    have h0 := dispatchAll_no_child w early AppState.init rfl
    have h1 := whenReady_no_kill w fuel (dispatchAll w AppState.init early).1
    have h2 := dispatchAll_kills w later
      (whenReady w fuel (dispatchAll w AppState.init early).1).1
    simp only [run, List.countP_append, h0.1, h1]
    omega

/-- Witness for C8: a state holding the child handle 7. -/
theorem beforeQuit_once_witness :
    beforeQuit { AppState.init with nextProcess := some 7 } =
      ({ AppState.init with nextProcess := none }, [Event.kill 7 "SIGTERM"]) ∧
    beforeQuit AppState.init = (AppState.init, []) :=
  ⟨beforeQuit_once.1 { AppState.init with nextProcess := some 7 } 7 rfl,
   beforeQuit_once.2.1 AppState.init rfl⟩
/-! ### One port for the whole run -/

theorem usesPort_plain (w : World) (a : Settled) (e : Event) (h1 : isSpawn e = false)
    (h2 : isConnect e = false) (h3 : loadedURLs [e] = []) : UsesPort w a e := by
  refine ⟨?_, ?_, ?_⟩
  · intro h; rw [h1] at h; cases h
  · intro p hp; rw [hp] at h2; cases h2
  · intro u hu; rw [hu] at h3; cases h3

theorem usesPort_spawnCall (w : World) (port : Nat) : UsesPort w (Settled.resolved port) (spawnCall w port) := by
  refine ⟨fun _ => ⟨port, rfl, rfl⟩, ?_, ?_⟩
  · intro p hp
    cases hk : w.isPackaged <;> simp [spawnCall, hk] at hp
  · intro u hu
    cases hk : w.isPackaged <;> simp [spawnCall, hk] at hu

theorem usesPort_connect (w : World) (port : Nat) : UsesPort w (Settled.resolved port) (Event.connect port) := by
  refine ⟨fun h => (by cases h), ?_, fun u hu => (by cases hu)⟩
  intro p hp
  cases hp
  rfl

theorem usesPort_loadURL (w : World) (port : Nat) :
    UsesPort w (Settled.resolved port) (Event.loadURL (windowURL port)) := by
  refine ⟨fun h => (by cases h), fun p hp => (by cases hp), ?_⟩
  intro u hu
  cases hu
  exact ⟨port, rfl, rfl⟩

theorem whenReady_usesPort (w : World) (fuel : Nat) (s : AppState) :
    ∀ e ∈ (whenReady w fuel s).2, UsesPort w (findAvailablePort w.listen fuel PORT).2 e := by
  intro e he
  rcases mem_whenReady w fuel s e he with h | h | ⟨q, hq, h⟩
  · rw [h]; exact usesPort_plain _ _ _ rfl rfl rfl
  · rcases alloc_events _ _ _ _ h with ⟨p, hp⟩ | ⟨p, hp⟩ <;> rw [hp] <;>
      exact usesPort_plain _ _ _ rfl rfl rfl
  · rw [hq]
    rcases h with h | ⟨x, h⟩ | h | ⟨_, h | h⟩ | ⟨_, h | h | h | h | h⟩
    · rw [h]; exact usesPort_spawnCall w q
    · rw [h]; exact usesPort_plain _ _ _ rfl rfl rfl
    · rcases probe_events _ _ _ _ _ h with h | h | h | h | h
      · rw [h]; exact usesPort_connect w q
      all_goals (rw [h]; exact usesPort_plain _ _ _ rfl rfl rfl)
    · rw [h]; exact usesPort_plain _ _ _ rfl rfl rfl
    · rw [h]; exact usesPort_plain _ _ _ rfl rfl rfl
    · rw [h]; exact usesPort_plain _ _ _ rfl rfl rfl
    · rw [h]; exact usesPort_loadURL w q
    · rw [h]; exact usesPort_plain _ _ _ rfl rfl rfl
    · rw [h]; exact usesPort_plain _ _ _ rfl rfl rfl
    · rw [h]; exact usesPort_plain _ _ _ rfl rfl rfl

theorem dispatchAll_usesPort (w : World) (a : Settled) (inputs : List Input) (s : AppState)
    (hs : ∀ q, s.activate = some q → a = Settled.resolved q) :
    ∀ e ∈ (dispatchAll w s inputs).2, UsesPort w a e := by
  intro e he
  rcases mem_dispatchAll w inputs s e he with h | ⟨c, h⟩ | ⟨q, hq, h | h | h | h⟩
  · rw [h]; exact usesPort_plain _ _ _ rfl rfl rfl
  · rw [h]; exact usesPort_plain _ _ _ rfl rfl rfl
  · rw [h]; exact usesPort_plain _ _ _ rfl rfl rfl
  · rw [h, hs q hq]; exact usesPort_loadURL w q
  · rw [h]; exact usesPort_plain _ _ _ rfl rfl rfl
  · rw [h]; exact usesPort_plain _ _ _ rfl rfl rfl

theorem dispatchAll_plain (w : World) (inputs : List Input) (s : AppState) :
    (dispatchAll w s inputs).2.countP isSpawn = 0 ∧ listens (dispatchAll w s inputs).2 = [] := by
  constructor
  · apply List.countP_eq_zero.mpr
    intro e he
    have hgoal : isSpawn e = false := by
      rcases mem_dispatchAll w inputs s e he with h | ⟨c, h⟩ | ⟨q, _, h | h | h | h⟩ <;>
        rw [h] <;> rfl
    simp [hgoal]
  · apply listens_eq_nil
    intro e he p hp
    rcases mem_dispatchAll w inputs s e he with h | ⟨c, h⟩ | ⟨q, _, h | h | h | h⟩ <;>
      rw [h] at hp <;> cases hp

theorem startNextServer_plain (w : World) (port : Nat) (s : AppState) :
    listens (startNextServer w port s).2 = [] ∧
    (startNextServer w port s).2.countP isSpawn = 1 := by
  cases hk : w.isPackaged <;>
    simp [startNextServer, spawnCall, hk, listens, isSpawn, List.countP_cons]

theorem whenReady_listens (w : World) (fuel : Nat) (s : AppState) :
    listens (whenReady w fuel s).2 = listens (findAvailablePort w.listen fuel PORT).1 := by
  have hP : ∀ port, listens (waitForServer w.answers port none).1 = [] ∧
      listens (waitForServer w.answers port none).2.2 = [] := by
    intro port
    constructor
    · apply listens_eq_nil
      intro e he p hp
      rcases probe_events _ _ _ _ _ (Or.inl he) with h | h | h | h | h <;> rw [h] at hp <;>
        cases hp
    · apply listens_eq_nil
      intro e he p hp
      rcases probe_events _ _ _ _ _ (Or.inr he) with h | h | h | h | h <;> rw [h] at hp <;>
        cases hp
  have hB : listens (Event.buildMenu :: (findAvailablePort w.listen fuel PORT).1) =
      listens (findAvailablePort w.listen fuel PORT).1 := rfl
  rcases whenReady_cases w fuel s with ⟨_, hw⟩ | ⟨port, _, _, hw⟩ | ⟨port, _, _, hw⟩
  · rw [hw]
    exact hB
  · rw [hw]
    simp only [listens_append, hB, (hP port).1, (hP port).2,
      (startNextServer_plain w port s).1, List.append_nil]
    simp [listens]
  · rw [hw]
    simp only [listens_append, hB, (hP port).1, (hP port).2,
      (startNextServer_plain w port s).1, List.append_nil]
    simp [listens, createWindow]

theorem whenReady_spawns (w : World) (fuel : Nat) (s : AppState) :
    (whenReady w fuel s).2.countP isSpawn ≤ 1 := by
  have hA : (findAvailablePort w.listen fuel PORT).1.countP isSpawn = 0 :=
    List.countP_eq_zero.mpr (fun e he => by
      simp [alloc_absent isSpawn (fun _ => rfl) (fun _ => rfl) w.listen fuel PORT e he])
  have hB : (Event.buildMenu :: (findAvailablePort w.listen fuel PORT).1).countP isSpawn = 0 := by
    rw [List.countP_cons, hA]; rfl
  have hP : ∀ port, (waitForServer w.answers port none).1.countP isSpawn = 0 := fun port =>
    List.countP_eq_zero.mpr (fun e he => by
      simp [probe_absent isSpawn (fun _ => rfl) (fun _ => rfl) rfl rfl (fun _ => rfl)
        w.answers port none e (Or.inl he)])
  have hQ : ∀ port, (waitForServer w.answers port none).2.2.countP isSpawn = 0 := fun port =>
    List.countP_eq_zero.mpr (fun e he => by
      simp [probe_absent isSpawn (fun _ => rfl) (fun _ => rfl) rfl rfl (fun _ => rfl)
        w.answers port none e (Or.inr he)])
  rcases whenReady_cases w fuel s with ⟨_, hw⟩ | ⟨port, _, _, hw⟩ | ⟨port, _, _, hw⟩
  · rw [hw, hB]
    exact Nat.zero_le 1
  · rw [hw]
    simp only [List.countP_append, hB, hP, hQ, (startNextServer_plain w port s).2]
    exact Nat.le_refl 1
  · rw [hw]
    simp only [List.countP_append, hB, hP, hQ, (startNextServer_plain w port s).2]
    exact Nat.le_refl 1

theorem whenReady_registers (w : World) (fuel : Nat) (s : AppState) (hs : s.activate = none)
    (q : Nat) :
    (whenReady w fuel s).1.activate = some q ↔
      ((findAvailablePort w.listen fuel PORT).2 = Settled.resolved q ∧
        (waitForServer w.answers q none).2.1 = Except.ok ()) := by
  rcases whenReady_cases w fuel s with ⟨ha, hw⟩ | ⟨port, ha, ⟨msg, hp⟩, hw⟩ | ⟨port, ha, hp, hw⟩
  · rw [hw]
    simp only [hs]
    constructor
    · intro h; cases h
    · rintro ⟨h1, _⟩
      exact absurd h1 (ha q)
  · rw [hw, ha]
    simp only [startNextServer, hs, Settled.resolved.injEq]
    constructor
    · intro h; cases h
    · rintro ⟨h1, h2⟩
      subst h1
      rw [hp] at h2
      cases h2
  · rw [hw, ha]
    simp only [Option.some.injEq, Settled.resolved.injEq]
    constructor
    · intro h; subst h; exact ⟨rfl, hp⟩
    · intro h; exact h.1

theorem activateHandler_creates (s : AppState) :
    (activateHandler s).2.countP isNewWindow =
      (if s.activate ≠ none ∧ s.windows = 0 then 1 else 0) ∧
    loadedURLs (activateHandler s).2 =
      (match s.activate with
       | some q => if s.windows = 0 then [windowURL q] else []
       | none => []) := by
  cases ha : s.activate with
  | none => simp [activateHandler, ha, loadedURLs]
  | some q =>
    by_cases hw : s.windows = 0 <;>
      simp [activateHandler, ha, hw, createWindow, isNewWindow, loadedURLs]
/-- C6, as written, fails on its last part: an `activate` event delivered while
no window exists creates no window when the listener is not registered.  In
`devWorld` an `activate` arriving before the startup handler has finished adds
nothing to the trace; in `deadWorld`, where the probe fails, an `activate`
arriving afterwards adds nothing either. -/
theorem activate_without_listener :
    AppState.init.windows = 0 ∧
    dispatch devWorld AppState.init Input.activate = (AppState.init, []) ∧
    (run devWorld 5 [Input.activate] []).2 = (run devWorld 5 [] []).2 ∧
    (run deadWorld 5 [] []).1.windows = 0 ∧
    (dispatch deadWorld (run deadWorld 5 [] []).1 Input.activate).2 = [] ∧
    (run deadWorld 5 [] [Input.activate]).2.countP isNewWindow = 0 := by
  decide

/-- C6, amended: in every application run there is one search for a port,
started at 3457 (the ports listened on are 3457, 3458, ... in turn), at most
one `spawn`, and every `spawn`, connection attempt and loaded URL of the run,
the first window and the windows created on `activate` included, is given the
port the allocator resolved to.  An `activate` event creates a window if and
only if the `activate` listener is registered and no window exists, and the
window then loads the URL of that port; the listener is not registered before
the startup handler has finished, and afterwards it is registered exactly when
the allocator resolved and the probe succeeded. -/
theorem run_single_port (w : World) (fuel : Nat) (early later : List Input) :
    (∃ m, m ≤ fuel ∧ (fuel = 0 ∨ 0 < m) ∧
      listens (run w fuel early later).2 = List.range' 3457 m) ∧
    (run w fuel early later).2.countP isSpawn ≤ 1 ∧
    (∀ e ∈ (run w fuel early later).2,
      UsesPort w (findAvailablePort w.listen fuel PORT).2 e) ∧
    (∀ s, (activateHandler s).2.countP isNewWindow =
      (if s.activate ≠ none ∧ s.windows = 0 then 1 else 0)) ∧
    (∀ s, loadedURLs (activateHandler s).2 =
      (match s.activate with
       | some q => if s.windows = 0 then [windowURL q] else []
       | none => [])) ∧
    (dispatchAll w AppState.init early).1.activate = none ∧
    (∀ q, (run w fuel early later).1.activate = some q ↔
      ((findAvailablePort w.listen fuel PORT).2 = Settled.resolved q ∧
        (waitForServer w.answers q none).2.1 = Except.ok ())) := by
  have h0 : (dispatchAll w AppState.init early).1.activate = none :=
    dispatchAll_activate w early AppState.init
  have hreg := whenReady_registers w fuel (dispatchAll w AppState.init early).1 h0
  refine ⟨?_, ?_, ?_, fun s => (activateHandler_creates s).1,
    fun s => (activateHandler_creates s).2, h0, ?_⟩
  · obtain ⟨m, hm, hpos, hl⟩ := alloc_listens w.listen fuel PORT
    refine ⟨m, hm, hpos, ?_⟩
    simp only [run, listens_append, (dispatchAll_plain w _ _).2, whenReady_listens, hl,
      List.nil_append, List.append_nil]
    rfl
  · simp only [run, List.countP_append, (dispatchAll_plain w _ _).1]
    have := whenReady_spawns w fuel (dispatchAll w AppState.init early).1
    omega
  · intro e he
    simp only [run, List.mem_append] at he
    rcases he with (he | he) | he
    · refine dispatchAll_usesPort w _ early AppState.init ?_ e he
      intro q hq
      cases hq
    · exact whenReady_usesPort w fuel _ e he
    · refine dispatchAll_usesPort w _ later _ ?_ e he
      intro q hq
      exact ((hreg q).mp hq).1
  · intro q
    simp only [run]
    rw [dispatchAll_activate]
    exact hreg q

/-- Witness for C6: in `devWorld` the allocator resolves to 3459,
and the run with one window closed and the application activated again loads
the URL of port 3459 twice. -/
theorem run_single_port_witness :
    (run devWorld 5 [Input.activate] [Input.windowClosed, Input.activate]).1.activate =
      some 3459 ∧
    loadedURLs (run devWorld 5 [Input.activate] [Input.windowClosed, Input.activate]).2 =
      [windowURL 3459, windowURL 3459] :=
  ⟨((run_single_port devWorld 5 [Input.activate] [Input.windowClosed, Input.activate]).2.2.2.2.2.2
      3459).mpr ⟨by decide, rfl⟩,
   by decide⟩
/-! ### Order of events in a whole run -/

theorem precedes_run (p q : Event → Bool) (l0 l1 l2 : List Event)
    (h0 : ∀ e ∈ l0, q e = false) (h1 : Precedes p q l1)
    (h2 : (∃ e ∈ l2, q e = true) → ∃ x ∈ l1, p x = true) :
    Precedes p q (l0 ++ l1 ++ l2) := by
  intro pre e post htr hqe
  rw [List.append_assoc] at htr
  rcases List.append_eq_append_iff.mp htr with ⟨a, ha, hrest⟩ | ⟨c, hc, hc2⟩
  · rcases List.append_eq_append_iff.mp hrest with ⟨b, hb, hl2⟩ | ⟨c, hc, hc2⟩
    · have he : e ∈ l2 := by rw [hl2]; simp
      obtain ⟨x, hx, hpx⟩ := h2 ⟨e, he, hqe⟩
      exact ⟨x, by rw [ha, hb]; simp [hx], hpx⟩
    · cases c with
      | nil =>
        have he : e ∈ l2 := by
          have : e :: post = l2 := by simpa using hc2
          rw [← this]; simp
        obtain ⟨x, hx, hpx⟩ := h2 ⟨e, he, hqe⟩
        refine ⟨x, ?_, hpx⟩
        rw [ha]
        have : l1 = a := by simpa using hc
        rw [← this]
        exact List.mem_append_right _ hx
      | cons y rest =>
        simp only [List.cons_append, List.cons.injEq] at hc2
        obtain ⟨x, hx, hpx⟩ := h1 a e rest (by rw [hc, hc2.1]) hqe
        exact ⟨x, by rw [ha]; exact List.mem_append_right _ hx, hpx⟩
  · cases c with
    | nil =>
      have hsplit : l1 ++ l2 = e :: post := by simpa using hc2.symm
      cases l1 with
      | nil =>
        have he : e ∈ l2 := by
          have : l2 = e :: post := by simpa using hsplit
          rw [this]; simp
        obtain ⟨x, hx, _⟩ := h2 ⟨e, he, hqe⟩
        cases hx
      | cons y rest =>
        simp only [List.cons_append, List.cons.injEq] at hsplit
        obtain ⟨x, hx, _⟩ := h1 [] e rest (by rw [hsplit.1]; rfl) hqe
        cases hx
    | cons y rest =>
      simp only [List.cons_append, List.cons.injEq] at hc2
      have he : e ∈ l0 := by rw [hc, hc2.1]; simp
      rw [h0 e he] at hqe
      cases hqe

theorem whenReady_resolved (w : World) (fuel : Nat) (s : AppState) (q : Nat)
    (ha : (findAvailablePort w.listen fuel PORT).2 = Settled.resolved q)
    (hp : (waitForServer w.answers q none).2.1 = Except.ok ()) :
    Event.probeResolve ∈ (whenReady w fuel s).2 := by
  have hmem := probe_ok_resolved w.answers q 60 0 hp
  have hmem2 : Event.probeResolve ∈ (waitForServer w.answers q none).1 := hmem
  simp only [whenReady, ha, hp]
  exact List.mem_append_left _ (List.mem_append_left _ (List.mem_append_left _
    (List.mem_append_right _ hmem2)))

theorem run_order (w : World) (fuel : Nat) (early later : List Input) :
    Precedes isSpawn isConnect (run w fuel early later).2 ∧
    Precedes isProbeResolve isNewWindow (run w fuel early later).2 := by
  have h0 : (dispatchAll w AppState.init early).1.activate = none :=
    dispatchAll_activate w early AppState.init
  constructor
  · apply precedes_run _ _ _ _ _ ?_ (whenReady_spawn_before_connect w fuel _) ?_
    · intro e he
      rcases mem_dispatchAll w early _ e he with h | ⟨c, h⟩ | ⟨q, _, h | h | h | h⟩ <;>
        rw [h] <;> rfl
    · rintro ⟨e, he, hq⟩
      rcases mem_dispatchAll w later _ e he with h | ⟨c, h⟩ | ⟨q, _, h | h | h | h⟩ <;>
        rw [h] at hq <;> cases hq
  · apply precedes_run _ _ _ _ _ ?_ (whenReady_window_after_probe w fuel _) ?_
    · intro e he
      rcases mem_dispatchAll w early _ e he with h | ⟨c, h⟩ | ⟨q, hq, _⟩
      · rw [h]; rfl
      · rw [h]; rfl
      · cases hq
    · rintro ⟨e, he, hq⟩
      rcases mem_dispatchAll w later _ e he with h | ⟨c, h⟩ | ⟨q, hreg, _⟩
      · rw [h] at hq; cases hq
      · rw [h] at hq; cases hq
      · obtain ⟨ha, hp⟩ := (whenReady_registers w fuel _ h0 q).mp hreg
        exact ⟨Event.probeResolve, whenReady_resolved w fuel _ q ha hp, rfl⟩
theorem probe_refused_error (w : World) (port : Nat)
    (hrefuse : ∀ i, i < 60 → w.answers port i = Answer.refuse) :
    waitForServer w.answers port none =
      (refusals port 60 ++ [Event.probeReject "Server failed to start"],
        Except.error "Server failed to start", []) := by
  have := attempt_refused w.answers port 60 0 (fun i hi => by simpa using hrefuse i hi)
  simpa [waitForServer] using this

/-- C5: in every trace of the startup handler, and in every trace of a whole
run around it, a connection attempt of the probe comes only after the `spawn`
call, and a window is created only after the probe has been resolved.  When the
allocator has resolved and all 60 connection attempts are refused, the trace
of the startup handler has 60 connection attempts and a call of `app.quit()`,
no window is created, `app.on('activate', ...)` is not called and the
registered `activate` listener is what it was before; in a whole run no
listener is registered then and no later event creates a window. -/
theorem whenReady_order (w : World) (fuel : Nat) (s : AppState) :
    Precedes isSpawn isConnect (whenReady w fuel s).2 ∧
    Precedes isProbeResolve isNewWindow (whenReady w fuel s).2 ∧
    (∀ early later, Precedes isSpawn isConnect (run w fuel early later).2 ∧
      Precedes isProbeResolve isNewWindow (run w fuel early later).2) ∧
    ∀ port, (findAvailablePort w.listen fuel PORT).2 = Settled.resolved port →
      (∀ i, i < 60 → w.answers port i = Answer.refuse) →
      (whenReady w fuel s).2.countP isConnect = 60 ∧
      Event.quit ∈ (whenReady w fuel s).2 ∧
      (∀ e ∈ (whenReady w fuel s).2, isNewWindow e = false) ∧
      Event.onActivate ∉ (whenReady w fuel s).2 ∧
      (whenReady w fuel s).1.activate = s.activate ∧
      ∀ early later, (∀ e ∈ (run w fuel early later).2, isNewWindow e = false) ∧
        (run w fuel early later).1.activate = none := by
  refine ⟨whenReady_spawn_before_connect w fuel s, whenReady_window_after_probe w fuel s,
    fun early later => run_order w fuel early later, ?_⟩
  intro port ha hrefuse
  have hnw : ∀ s0, ∀ e ∈ (whenReady w fuel s0).2, isNewWindow e = false := by
    intro s0 e he
    have hp0 := probe_refused_error w port hrefuse
    have hw0 : whenReady w fuel s0 = ((startNextServer w port s0).1,
        Event.buildMenu :: (findAvailablePort w.listen fuel PORT).1 ++
          (startNextServer w port s0).2 ++ (waitForServer w.answers port none).1 ++
          [Event.consoleError "Next.js server did not start in time", Event.quit] ++
          (waitForServer w.answers port none).2.2) := by
      simp [whenReady, ha, hp0]
    rw [hw0] at he
    exact failed_startup_no_window w fuel s0 port e he
  have hrun : ∀ early later, (∀ e ∈ (run w fuel early later).2, isNewWindow e = false) ∧
      (run w fuel early later).1.activate = none := by
    intro early later
    have h0 : (dispatchAll w AppState.init early).1.activate = none :=
      dispatchAll_activate w early AppState.init
    have hnone : (whenReady w fuel (dispatchAll w AppState.init early).1).1.activate = none := by
      cases hact : (whenReady w fuel (dispatchAll w AppState.init early).1).1.activate with
      | none => rfl
      | some q =>
        obtain ⟨hq, hok⟩ := (whenReady_registers w fuel _ h0 q).mp hact
        rw [ha] at hq
        cases hq
        rw [probe_refused_error w port hrefuse] at hok
        cases hok
    refine ⟨?_, ?_⟩
    · intro e he
      simp only [run, List.mem_append] at he
      rcases he with (he | he) | he
      · rcases mem_dispatchAll w early _ e he with h | ⟨c, h⟩ | ⟨q, hq, _⟩
        · rw [h]; rfl
        · rw [h]; rfl
        · cases hq
      · exact hnw _ e he
      · rcases mem_dispatchAll w later _ e he with h | ⟨c, h⟩ | ⟨q, hq, _⟩
        · rw [h]; rfl
        · rw [h]; rfl
        · rw [hnone] at hq
          cases hq
    · simp only [run]
      rw [dispatchAll_activate]
      exact hnone
  have hp := probe_refused_error w port hrefuse
  have hp2 : (waitForServer w.answers port none).2.1 =
      Except.error "Server failed to start" := by
    rw [hp]
  have hw : whenReady w fuel s = ((startNextServer w port s).1,
        Event.buildMenu :: (findAvailablePort w.listen fuel PORT).1 ++
          (startNextServer w port s).2 ++ (waitForServer w.answers port none).1 ++
          [Event.consoleError "Next.js server did not start in time", Event.quit]) := by
    simp [whenReady, ha, hp]
  have hA := alloc_absent isConnect (fun _ => rfl) (fun _ => rfl) w.listen fuel PORT
  refine ⟨?_, ?_, hnw s, ?_, ?_, hrun⟩
  · have hA0 : (findAvailablePort w.listen fuel PORT).1.countP isConnect = 0 :=
      List.countP_eq_zero.mpr (fun e he => by simp [hA e he])
    have hR : (refusals port 60 ++ [Event.probeReject "Server failed to start"]).countP
        isConnect = 60 := by
      rw [countP_isConnect_refusals]; rfl
    rw [hw, hp]
    simp only [List.cons_append, List.countP_cons, List.countP_append, startNextServer, hA0,
      isConnect_spawnCall, hR]
    simp [isConnect]
  · rw [hw]; simp
  · intro hmem
    rcases mem_whenReady w fuel s _ hmem with h | h | ⟨q, hq, h⟩
    · cases h
    · rcases alloc_events _ _ _ _ h with ⟨p, hp⟩ | ⟨p, hp⟩ <;> cases hp
    · rw [ha] at hq
      cases hq
      rcases h with h | ⟨x, h⟩ | h | ⟨_, h | h⟩ | ⟨hok, _⟩
      · exact spawnCall_ne_onActivate w port h
      · cases h
      · rcases probe_events _ _ _ _ _ h with h | h | h | h | h <;> cases h
      · cases h
      · cases h
      · rw [hp2] at hok
        cases hok
  · rw [hw]
    rfl

/-- Witness for C5: the startup of `deadWorld`, whose allocator
resolves to 3459 and whose server refuses every connection. -/
theorem whenReady_order_witness :
    (whenReady deadWorld 5 AppState.init).2.countP isConnect = 60 ∧
    Event.quit ∈ (whenReady deadWorld 5 AppState.init).2 ∧
    (∀ e ∈ (whenReady deadWorld 5 AppState.init).2, isNewWindow e = false) ∧
    Event.onActivate ∉ (whenReady deadWorld 5 AppState.init).2 ∧
    (whenReady deadWorld 5 AppState.init).1.activate = AppState.init.activate ∧
    ∀ early later, (∀ e ∈ (run deadWorld 5 early later).2, isNewWindow e = false) ∧
      (run deadWorld 5 early later).1.activate = none :=
  (whenReady_order deadWorld 5 AppState.init).2.2.2 3459 (by decide) (fun _ _ => rfl)
end Overwatch
